import Mathlib

/-!
# Verification of the G1 allocation-region core (`g1AllocRegion.cpp`)

A shallow embedding of the region-based allocation core of the G1 garbage
collector (`G1AllocRegion`, `MutatorAllocRegion`, `G1GCAllocRegion`) together
with proofs of the specification's claims about it.

Modelling conventions:
* A heap region (`G1HeapRegion`) is a bump-pointer span: a capacity in words
  and a `top` (number of words already allocated).  `free()`/`used()` are in
  bytes, as in the source (`HeapWordSize` bytes per word).
* Concurrent interference by racing allocator threads is modelled by an
  interference stream `f : Nat → Nat`: before the `k`-th CAS attempt of the
  retirement fill loop, other threads successfully bump-allocate `f k` words
  (capped by what fits).  The sequential (uncontended) execution is the
  stream that is constantly `0`.
* Debug assertions (`assert` / `assert_alloc_region`) are modelled by making
  every operation that contains one return an `Option`: `none` is an
  assertion failure, `some` is normal completion.
* Calls out to the heap (`retire_mutator_alloc_region`,
  `retire_gc_alloc_region`) and to the statistics aggregator
  (`add_region_end_waste`) are recorded in event lists inside the state.
-/

set_option autoImplicit false

namespace G1

/-- Bytes per heap word (`HeapWordSize`). -/
def HeapWordSize : Nat := 8

/-- A heap region as the allocator core sees it: a bump-allocation span.
`capacityWords` is the region size in words, `top` the number of words already
allocated, `preDummyTop` the pre-fill top marker (`_pre_dummy_top`). -/
structure G1HeapRegion where
  capacityWords : Nat
  top : Nat
  preDummyTop : Option Nat
deriving Repr, DecidableEq

namespace G1HeapRegion

/-- Free space in words (`free() / HeapWordSize`). -/
def freeWords (r : G1HeapRegion) : Nat := r.capacityWords - r.top

/-- `G1HeapRegion::free()`, in bytes. -/
def free (r : G1HeapRegion) : Nat := r.freeWords * HeapWordSize

/-- `G1HeapRegion::used()`, in bytes. -/
def used (r : G1HeapRegion) : Nat := r.top * HeapWordSize

/-- `G1HeapRegion::is_empty()`: no words allocated. -/
def is_empty (r : G1HeapRegion) : Bool := r.top == 0

/-- The atomic bump allocation (`par_allocate` / `allocate` on a region):
returns the pointer (the old `top`, in words) and the advanced region, or
`none` if the region lacks `w` contiguous free words. -/
def par_allocate (r : G1HeapRegion) (w : Nat) : Option (Nat × G1HeapRegion) :=
  if w ≤ r.freeWords then some (r.top, { r with top := r.top + w }) else none

/-- `G1HeapRegion::set_pre_dummy_top`. -/
def set_pre_dummy_top (r : G1HeapRegion) (p : Nat) : G1HeapRegion :=
  { r with preDummyTop := some p }

/-- `G1HeapRegion::reset_pre_dummy_top`. -/
def reset_pre_dummy_top (r : G1HeapRegion) : G1HeapRegion :=
  { r with preDummyTop := none }

/-- `fill_with_dummy_object` stamps the span as a filler object; it does not
change the region's allocation bookkeeping (the space was already claimed by
the preceding bump allocation), so on this abstraction it is the identity. -/
def fill_with_dummy_object (r : G1HeapRegion) (_p _w : Nat) : G1HeapRegion := r

/-- One successful interference step: some other thread bump-allocates `s`
words out of the region if they fit (a failed attempt changes nothing). -/
def steal (r : G1HeapRegion) (s : Nat) : G1HeapRegion :=
  if s ≤ r.freeWords then { r with top := r.top + s } else r

end G1HeapRegion

/-! The minimum fill chunk `CollectedHeap::min_fill_size()` and the minimum
TLAB size `MinTLABSize` are externally supplied constants; they are kept as
explicit `Nat` parameters named `minFill` and `minTLAB`. -/

/-- The body of the retirement fill loop of
`G1AllocRegion::fill_up_remaining_space` (lines 73–88).  `f` is the
interference stream and `k` the index of the current CAS attempt.  Returns
the waste accumulated inside the loop (bytes), the region after the loop,
and the number of loop iterations executed.  The recursion is well-founded
on the region's free word count: a failed maximal allocation means a
concurrent thread took space, so `freeWords` strictly decreased. -/
def fillLoop (minFill : Nat) (f : Nat → Nat) (k : Nat)
    (r : G1HeapRegion) : Nat × G1HeapRegion × Nat :=
  if _h : r.freeWords < minFill then
    (0, r, 0)
  else
    match hp : (r.steal (f k)).par_allocate r.freeWords with
    | some (dummy, r2) =>
        ((r.freeWords) * HeapWordSize,
         (r2.fill_with_dummy_object dummy r.freeWords).set_pre_dummy_top dummy,
         1)
    | none =>
        ((fillLoop minFill f (k + 1) (r.steal (f k))).1,
         (fillLoop minFill f (k + 1) (r.steal (f k))).2.1,
         (fillLoop minFill f (k + 1) (r.steal (f k))).2.2 + 1)
termination_by r.freeWords
decreasing_by
  unfold G1HeapRegion.par_allocate at hp
  split at hp
  · exact absurd hp (by simp)
  · omega

/-- `G1AllocRegion::fill_up_remaining_space` (lines 52–94): run the fill
loop, then add the region's remaining (sub-threshold) free bytes to the
waste.  Returns `(waste, region)`. -/
def fill_up_remaining_space (minFill : Nat) (f : Nat → Nat)
    (r : G1HeapRegion) : Nat × G1HeapRegion :=
  let res := fillLoop minFill f 0 r
  (res.1 + res.2.1.free, res.2.1)

/-- The `_alloc_region` field: either `nullptr`, the dummy region sentinel
(`_dummy_region`, a region with `free() == 0` against which every allocation
fails), or a real heap region whose state we track in place. -/
inductive ActiveRef where
  | noRegion
  | dummy
  | real (r : G1HeapRegion)
deriving Repr, DecidableEq

/-- The fields of `G1AllocRegion` relevant to its behaviour:
`_alloc_region` and `_count`. -/
structure AllocRegionState where
  alloc_region : ActiveRef
  count : Nat
deriving Repr, DecidableEq

namespace AllocRegion

open G1HeapRegion

/-- `G1AllocRegion::init` (lines 155–162): asserts `_alloc_region == nullptr`,
then sets `_alloc_region = _dummy_region` and `_count = 0`. -/
def init (s : AllocRegionState) : Option AllocRegionState :=
  if s.alloc_region = ActiveRef.noRegion then
    some { alloc_region := ActiveRef.dummy, count := 0 }
  else
    none

/-- `G1AllocRegion::update_alloc_region` (lines 172–181): asserts the region
is non-null and not empty, then stores it in `_alloc_region` and increments
`_count`. -/
def update_alloc_region (s : AllocRegionState) (r : G1HeapRegion) :
    Option AllocRegionState :=
  if r.is_empty then
    none
  else
    some { alloc_region := ActiveRef.real r, count := s.count + 1 }

/-- `G1AllocRegion::set` (lines 164–170): asserts
`_alloc_region == _dummy_region && _count == 0`, then publishes the region
via `update_alloc_region`. -/
def set (s : AllocRegionState) (r : G1HeapRegion) : Option AllocRegionState :=
  if s.alloc_region = ActiveRef.dummy ∧ s.count = 0 then
    update_alloc_region s r
  else
    none

/-- Modelled from the spec: `G1AllocRegion::reset_alloc_region` is declared in
`g1AllocRegion.hpp`, which is not part of the excerpt; the spec states that
retirement "resets active back to dummy" and `release` asserts
`_alloc_region == _dummy_region` as the post-condition of `retire`. -/
def reset_alloc_region (s : AllocRegionState) : AllocRegionState :=
  { s with alloc_region := ActiveRef.dummy }

/-- Modelled from the spec: `G1AllocRegion::get` is declared in
`g1AllocRegion.hpp`, which is not part of the excerpt.  The dummy region is
"a permanently empty region substituted for 'no active region'" (glossary),
so `get` yields a region exactly when the active reference is a real region
(`MutatorAllocRegion::retire` guards on "the current active region is
non-null", and `G1GCAllocRegion::retire` uses it to "not count retirement of
the dummy allocation region"). -/
def get (s : AllocRegionState) : Option G1HeapRegion :=
  match s.alloc_region with
  | ActiveRef.real r => some r
  | _ => none

/-- `G1AllocRegion::retire_internal` (lines 96–111), parametrised by the
subclass's virtual `retire_region` hook acting on subclass state `σ`:
asserts the region is not empty, fills up the remaining space when `fill_up`
is set, hands the region to the hook, and returns the waste (the hook's
resulting subclass state and the filled region are returned alongside). -/
def retire_internal {σ : Type} (hook : σ → G1HeapRegion → Option σ)
    (minFill : Nat) (f : Nat → Nat) (st : σ) (r : G1HeapRegion)
    (fill_up : Bool) : Option (Nat × G1HeapRegion × σ) :=
  if r.is_empty then
    none
  else
    let wr := if fill_up then fill_up_remaining_space minFill f r else (0, r)
    match hook st wr.2 with
    | some st' => some (wr.1, wr.2, st')
    | none => none

/-- `G1AllocRegion::retire` (lines 113–127), parametrised by the subclass's
`retire_region` hook: asserts `_alloc_region != nullptr`; when the active
region is not the dummy, retires it via `retire_internal` and resets the
active reference back to the dummy; otherwise returns zero waste. -/
def retire {σ : Type} (hook : σ → G1HeapRegion → Option σ)
    (minFill : Nat) (f : Nat → Nat) (st : σ) (s : AllocRegionState)
    (fill_up : Bool) : Option (Nat × AllocRegionState × σ) :=
  match s.alloc_region with
  | ActiveRef.noRegion => none
  | ActiveRef.dummy => some (0, s, st)
  | ActiveRef.real r =>
      match retire_internal hook minFill f st r fill_up with
      | some (waste, _, st') => some (waste, reset_alloc_region s, st')
      | none => none

/-- `G1AllocRegion::release` (lines 183–191), parametrised by the subclass's
`retire_region` hook: captures the active region, retires with
`fill_up = false`, asserts the post-condition `_alloc_region == _dummy_region`,
sets `_alloc_region = nullptr`, and returns the captured region unless it was
the dummy. -/
def release {σ : Type} (hook : σ → G1HeapRegion → Option σ)
    (minFill : Nat) (f : Nat → Nat) (st : σ) (s : AllocRegionState) :
    Option (Option G1HeapRegion × AllocRegionState × σ) :=
  let captured := s.alloc_region
  match retire hook minFill f st s false with
  | none => none
  | some (_, s1, st') =>
      if s1.alloc_region = ActiveRef.dummy then
        some (match captured with
              | ActiveRef.real r => some r
              | _ => none,
              { s1 with alloc_region := ActiveRef.noRegion }, st')
      else
        none

/-- `G1AllocRegion::new_alloc_region_and_allocate` (lines 129–153),
parametrised by the subclass's virtual `allocate_new_region` answer
(`heapAnswer`, the region supplied by the heap, or `none` when the heap is
exhausted): asserts `_alloc_region == _dummy_region`; on a `none` answer
returns null with the state unchanged; otherwise resets the new region's
pre-dummy top, asserts it is empty, performs the first allocation of
`word_size` (asserted to succeed), and only then publishes the region via
`update_alloc_region`, returning the allocation result. -/
def new_alloc_region_and_allocate (s : AllocRegionState)
    (heapAnswer : Option G1HeapRegion) (word_size : Nat) :
    Option (Option Nat × AllocRegionState) :=
  if s.alloc_region = ActiveRef.dummy then
    match heapAnswer with
    | none => some (none, s)
    | some nr =>
        let nr0 := nr.reset_pre_dummy_top
        if nr0.is_empty then
          match nr0.par_allocate word_size with
          | some (result, nr1) =>
              match update_alloc_region s nr1 with
              | some s' => some (some result, s')
              | none => none
          | none => none
        else
          none
  else
    none

/-- The fast allocation path (`G1AllocRegion::par_allocate` against the
active region): a lock-free bump allocation performed by any thread; it
never changes which region is active, only the region's own bump pointer. -/
def fast_allocate (s : AllocRegionState) (w : Nat) :
    Option (Nat × AllocRegionState) :=
  match s.alloc_region with
  | ActiveRef.real r =>
      match r.par_allocate w with
      | some (p, r') => some (p, { s with alloc_region := ActiveRef.real r' })
      | none => none
  | _ => none

/-- The trivial `retire_region` hook of the base state machine: handing the
region back to the heap leaves the core fields unchanged. -/
def baseHook : Unit → G1HeapRegion → Option Unit := fun u _ => some u

end AllocRegion


/-- The fields of `MutatorAllocRegion` beyond the base class, plus a log of
the regions handed back to the heap by its `retire_region` hook
(`G1CollectedHeap::retire_mutator_alloc_region(region, used_bytes)`). -/
structure MutatorState where
  core : AllocRegionState
  retained_alloc_region : Option G1HeapRegion
  wasted_bytes : Nat
  heapRetired : List (G1HeapRegion × Nat)
deriving Repr, DecidableEq

namespace Mutator

open G1HeapRegion AllocRegion

/-- `MutatorAllocRegion::retire_region` (lines 248–250): hand the region and
its used bytes to `G1CollectedHeap::retire_mutator_alloc_region`. -/
def retire_region (s : MutatorState) (r : G1HeapRegion) : Option MutatorState :=
  some { s with heapRetired := (r, r.used) :: s.heapRetired }

/-- `MutatorAllocRegion::init` (lines 252–256): asserts no region is
retained, runs the base `init`, and zeroes `_wasted_bytes`. -/
def init (s : MutatorState) : Option MutatorState :=
  if s.retained_alloc_region = none then
    match AllocRegion.init s.core with
    | some c => some { s with core := c, wasted_bytes := 0 }
    | none => none
  else
    none

/-- `MutatorAllocRegion::should_retain` (lines 258–270): retain the
candidate unless its free bytes fall below `MinTLABSize`, or a region is
already retained and has strictly more free bytes than the candidate. -/
def should_retain (minTLAB : Nat) (s : MutatorState)
    (region : G1HeapRegion) : Bool :=
  let free_bytes := region.free
  if free_bytes < minTLAB then
    false
  else
    match s.retained_alloc_region with
    | some q => !(free_bytes < q.free)
    | none => true

/-- `retire_internal` as invoked from `MutatorAllocRegion` (virtual
`retire_region` resolves to `Mutator.retire_region`). -/
def retire_internal (minFill : Nat) (f : Nat → Nat) (s : MutatorState)
    (r : G1HeapRegion) (fill_up : Bool) : Option (Nat × MutatorState) :=
  match AllocRegion.retire_internal retire_region minFill f s r fill_up with
  | some (waste, _, s') => some (waste, s')
  | none => none

/-- `MutatorAllocRegion::retire` (lines 272–294): if the current region (via
`get`, null when the active reference is the dummy) is non-null, either
retain it — fully retiring (fill_up = true) any previously retained region —
or retire it along the ordinary path, then reset the active reference;
finally accumulate the waste into `_wasted_bytes`. -/
def retire (minFill : Nat) (f : Nat → Nat) (minTLAB : Nat)
    (s : MutatorState) (fill_up : Bool) : Option (Nat × MutatorState) :=
  match AllocRegion.get s.core with
  | none => some (0, { s with wasted_bytes := s.wasted_bytes + 0 })
  | some current_region =>
      let step : Option (Nat × MutatorState) :=
        if should_retain minTLAB s current_region then
          match s.retained_alloc_region with
          | some q =>
              match retire_internal minFill f s q true with
              | some (waste, s1) =>
                  some (waste, { s1 with retained_alloc_region := some current_region })
              | none => none
          | none =>
              some (0, { s with retained_alloc_region := some current_region })
        else
          retire_internal minFill f s current_region fill_up
      match step with
      | some (waste, s2) =>
          some (waste,
            { s2 with
                core := reset_alloc_region s2.core,
                wasted_bytes := s2.wasted_bytes + waste })
      | none => none

/-- `MutatorAllocRegion::used_in_alloc_regions` (lines 296–308): used bytes
summed over the current region (if any) and the retained region (if any). -/
def used_in_alloc_regions (s : MutatorState) : Nat :=
  let fromActive :=
    match AllocRegion.get s.core with
    | some hr => hr.used
    | none => 0
  let fromRetained :=
    match s.retained_alloc_region with
    | some hr => hr.used
    | none => 0
  fromActive + fromRetained

/-- `MutatorAllocRegion::release` (lines 310–326): run the base `release`
(whose internal virtual `retire(false)` dispatches to
`Mutator.retire`, possibly updating the retained region), then force-retire
any still-retained region with `fill_up = false`, accumulating its waste. -/
def release (minFill : Nat) (f : Nat → Nat) (minTLAB : Nat)
    (s : MutatorState) : Option (Option G1HeapRegion × MutatorState) :=
  let captured := s.core.alloc_region
  match retire minFill f minTLAB s false with
  | none => none
  | some (_, s1) =>
      if s1.core.alloc_region = ActiveRef.dummy then
        let s2 := { s1 with core := { s1.core with alloc_region := ActiveRef.noRegion } }
        let ret : Option G1HeapRegion :=
          match captured with
          | ActiveRef.real r => some r
          | _ => none
        match s2.retained_alloc_region with
        | some q =>
            match retire_internal minFill f s2 q false with
            | some (waste, s3) =>
                some (ret,
                  { s3 with
                      wasted_bytes := s3.wasted_bytes + waste,
                      retained_alloc_region := none })
            | none => none
        | none => some (ret, s2)
      else
        none

end Mutator

/-- The purpose tag of a GC allocation region (`G1HeapRegionAttr` /
destination: survivor or old). -/
inductive Purpose where
  | survivor
  | old
deriving Repr, DecidableEq

/-- The fields of `G1GCAllocRegion` beyond the base class
(`_used_bytes_before`, the per-purpose `_stats` aggregator modelled as the
list of end-waste word counts added to it, newest first), plus a log of the
regions handed back to the heap by its `retire_region` hook
(`G1CollectedHeap::retire_gc_alloc_region(region, allocated_bytes,
purpose)`). -/
structure GCState where
  core : AllocRegionState
  used_bytes_before : Nat
  stats : List Nat
  heapRetired : List (G1HeapRegion × Nat × Purpose)
deriving Repr, DecidableEq

namespace GCAlloc

open G1HeapRegion AllocRegion

/-- `G1GCAllocRegion::retire_region` (lines 332–337): asserts
`region.used() >= _used_bytes_before`, reports the region and the bytes
allocated during its active lifetime to the heap tagged with this instance's
purpose, then clears `_used_bytes_before`. -/
def retire_region (purpose : Purpose) (s : GCState) (r : G1HeapRegion) :
    Option GCState :=
  if r.used < s.used_bytes_before then
    none
  else
    let allocated_bytes := r.used - s.used_bytes_before
    some { s with
             heapRetired := (r, allocated_bytes, purpose) :: s.heapRetired,
             used_bytes_before := 0 }

/-- The base `G1AllocRegion::retire` as invoked from `G1GCAllocRegion`
(virtual `retire_region` resolves to `GCAlloc.retire_region`); threads the
subclass state through the hook and updates the core fields. -/
def retireBase (purpose : Purpose) (minFill : Nat) (f : Nat → Nat)
    (s : GCState) (fill_up : Bool) : Option (Nat × GCState) :=
  match AllocRegion.retire (retire_region purpose) minFill f s s.core fill_up with
  | some (waste, c, s') => some (waste, { s' with core := c })
  | none => none

/-- `G1GCAllocRegion::retire` (lines 339–347): capture the current region
via `get` (null when the active reference is the dummy), delegate to the
base retirement, and, unless the retired region was the dummy, add the
end-of-life waste in words to the shared statistics aggregator. -/
def retire (purpose : Purpose) (minFill : Nat) (f : Nat → Nat)
    (s : GCState) (fill_up : Bool) : Option (Nat × GCState) :=
  let retired := AllocRegion.get s.core
  match retireBase purpose minFill f s fill_up with
  | none => none
  | some (end_waste, s1) =>
      match retired with
      | some _ =>
          some (end_waste,
            { s1 with stats := (end_waste / HeapWordSize) :: s1.stats })
      | none => some (end_waste, s1)

/-- `G1GCAllocRegion::reuse` (lines 349–352): snapshot
`_used_bytes_before = region.used()`, then install the region through the
base `set` path. -/
def reuse (s : GCState) (r : G1HeapRegion) : Option GCState :=
  let s0 := { s with used_bytes_before := r.used }
  match AllocRegion.set s0.core r with
  | some c => some { s0 with core := c }
  | none => none

end GCAlloc

/-- A concurrent history of fast-path `allocate(w)` calls against one active
region.  The region's atomic bump pointer is the sole synchronization, so
every concurrent execution is the linearization of its successful CAS
operations: a sequence of `par_allocate` calls in some order.  `runAllocs`
replays one such linearization and collects the granted spans
`(pointer, word_size)` of the successful calls. -/
def runAllocs (r : G1HeapRegion) : List Nat → List (Nat × Nat) × G1HeapRegion
  | [] => ([], r)
  | w :: ws =>
      match r.par_allocate w with
      | some (p, r') =>
          let rest := runAllocs r' ws
          ((p, w) :: rest.1, rest.2)
      | none => runAllocs r ws

/-- Two granted spans `(pointer, size)` do not overlap. -/
def SpansDisjoint (a b : Nat × Nat) : Prop :=
  a.1 + a.2 ≤ b.1 ∨ b.1 + b.2 ≤ a.1

/-- The states of a `G1AllocRegion` reachable from construction
(`_alloc_region = nullptr`, `_count = 0`) by its operations.  The mutating
operations (`init`, `set`, the acquisition path, `retire`, `release`) are
executed by the single permitted writer thread; `fastAlloc` steps may be
taken by any thread against the current active region.  Only successful
(assertion-passing) executions produce new states. -/
inductive Reachable (minFill : Nat) : AllocRegionState → Prop where
  | start : Reachable minFill { alloc_region := ActiveRef.noRegion, count := 0 }
  | init (s s' : AllocRegionState) :
      Reachable minFill s → AllocRegion.init s = some s' →
      Reachable minFill s'
  | set (s s' : AllocRegionState) (r : G1HeapRegion) :
      Reachable minFill s → AllocRegion.set s r = some s' →
      Reachable minFill s'
  | newAlloc (s s' : AllocRegionState) (heapAnswer : Option G1HeapRegion)
      (w : Nat) (res : Option Nat) :
      Reachable minFill s →
      AllocRegion.new_alloc_region_and_allocate s heapAnswer w = some (res, s') →
      Reachable minFill s'
  | fastAlloc (s s' : AllocRegionState) (w p : Nat) :
      Reachable minFill s → AllocRegion.fast_allocate s w = some (p, s') →
      Reachable minFill s'
  | retire (s s' : AllocRegionState) (f : Nat → Nat) (fill_up : Bool)
      (waste : Nat) :
      Reachable minFill s →
      AllocRegion.retire AllocRegion.baseHook minFill f () s fill_up =
        some (waste, s', ()) →
      Reachable minFill s'
  | release (s s' : AllocRegionState) (f : Nat → Nat)
      (ret : Option G1HeapRegion) :
      Reachable minFill s →
      AllocRegion.release AllocRegion.baseHook minFill f () s =
        some (ret, s', ()) →
      Reachable minFill s'

/-! ## Helper lemmas -/

namespace G1HeapRegion

theorem par_allocate_none_lt (r : G1HeapRegion) (w : Nat)
    (h : r.par_allocate w = none) : r.freeWords < w := by
  unfold par_allocate at h
  split at h
  · exact absurd h (by simp)
  · omega

theorem steal_zero (r : G1HeapRegion) : r.steal 0 = r := by
  unfold steal
  rw [if_pos (Nat.zero_le _)]
  simp

theorem par_allocate_self (r : G1HeapRegion) :
    r.par_allocate r.freeWords =
      some (r.top, { r with top := r.top + r.freeWords }) := by
  unfold par_allocate
  rw [if_pos (Nat.le_refl _)]

theorem used_pos_iff (r : G1HeapRegion) : 0 < r.used ↔ r.is_empty = false := by
  unfold used is_empty HeapWordSize
  rw [beq_eq_false_iff_ne]
  omega

end G1HeapRegion

theorem fillLoop_eq_stop (minFill : Nat) (f : Nat → Nat) (k : Nat)
    (r : G1HeapRegion) (h : r.freeWords < minFill) :
    fillLoop minFill f k r = (0, r, 0) := by
  rw [fillLoop]
  rw [dif_pos h]

theorem fillLoop_eq_filled (minFill : Nat) (f : Nat → Nat) (k : Nat)
    (r : G1HeapRegion) (h : ¬ r.freeWords < minFill)
    (dummy : Nat) (r2 : G1HeapRegion)
    (hp : (r.steal (f k)).par_allocate r.freeWords = some (dummy, r2)) :
    fillLoop minFill f k r =
      (r.freeWords * HeapWordSize,
       (r2.fill_with_dummy_object dummy r.freeWords).set_pre_dummy_top dummy,
       1) := by
  rw [fillLoop]
  rw [dif_neg h]
  split
  · rename_i d' r2' heq
    rw [hp] at heq
    cases heq
    rfl
  · rename_i heq
    rw [hp] at heq
    cases heq

theorem fillLoop_eq_failed (minFill : Nat) (f : Nat → Nat) (k : Nat)
    (r : G1HeapRegion) (h : ¬ r.freeWords < minFill)
    (hp : (r.steal (f k)).par_allocate r.freeWords = none) :
    fillLoop minFill f k r =
      ((fillLoop minFill f (k + 1) (r.steal (f k))).1,
       (fillLoop minFill f (k + 1) (r.steal (f k))).2.1,
       (fillLoop minFill f (k + 1) (r.steal (f k))).2.2 + 1) := by
  rw [fillLoop]
  rw [dif_neg h]
  split
  · rename_i d' r2' heq
    rw [hp] at heq
    cases heq
  · rfl

open G1HeapRegion in
theorem fillLoop_noInterference (minFill : Nat) (k : Nat)
    (r : G1HeapRegion) (h : minFill ≤ r.freeWords) :
    fillLoop minFill (fun _ => 0) k r =
      (r.freeWords * HeapWordSize,
       { capacityWords := r.capacityWords, top := r.top + r.freeWords,
         preDummyTop := some r.top }, 1) := by
  have hp : ((r.steal 0).par_allocate r.freeWords) =
      some (r.top, { r with top := r.top + r.freeWords }) := by
    rw [steal_zero, par_allocate_self]
  rw [fillLoop_eq_filled minFill (fun _ => 0) k r (Nat.not_lt.mpr h)
    r.top { r with top := r.top + r.freeWords } hp]
  rfl

open G1HeapRegion in
theorem fill_up_noInterference (minFill : Nat) (r : G1HeapRegion)
    (h1 : 0 < minFill) (h2 : minFill ≤ r.freeWords) :
    fill_up_remaining_space minFill (fun _ => 0) r =
      (r.free,
       { capacityWords := r.capacityWords, top := r.capacityWords,
         preDummyTop := some r.top }) := by
  have htop : r.top + r.freeWords = r.capacityWords := by
    have h3 : minFill ≤ r.capacityWords - r.top := h2
    unfold freeWords
    omega
  unfold fill_up_remaining_space
  rw [fillLoop_noInterference minFill 0 r h2]
  simp only [htop]
  unfold free freeWords
  simp

theorem update_alloc_region_shape (s : AllocRegionState) (r0 : G1HeapRegion)
    (s' : AllocRegionState)
    (h : AllocRegion.update_alloc_region s r0 = some s') :
    s'.alloc_region = ActiveRef.real r0 ∧ r0.is_empty = false := by
  unfold AllocRegion.update_alloc_region at h
  split at h
  · exact absurd h (by simp)
  · rename_i hne
    simp only [Option.some.injEq] at h
    rw [← h]
    refine ⟨rfl, ?_⟩
    simp at hne
    exact hne

/-! ## Claim theorems -/

/-- Claim C9: the retirement fill loop of `fill_up_remaining_space`
terminates for every execution, under every interference stream `f`: a
failed maximal bump allocation means the region's free space strictly
decreased, so the number of iterations is bounded by the initial free word
count (plus the final sub-threshold check). -/
theorem fillLoop_iterations_bounded (minFill : Nat) (f : Nat → Nat)
    (k : Nat) (r : G1HeapRegion) :
    (fillLoop minFill f k r).2.2 ≤ r.freeWords + 1 := by
  induction k, r using fillLoop.induct minFill f with
  | case1 k r hlt =>
      rw [fillLoop_eq_stop minFill f k r hlt]
      exact Nat.zero_le _
  | case2 k r hge dummy r2 hp =>
      rw [fillLoop_eq_filled minFill f k r hge dummy r2 hp]
      exact Nat.succ_le_succ (Nat.zero_le _)
  | case3 k r hge hp ih =>
      have hlt : (r.steal (f k)).freeWords < r.freeWords :=
        G1HeapRegion.par_allocate_none_lt _ _ hp
      rw [fillLoop_eq_failed minFill f k r hge hp]
      show (fillLoop minFill f (k + 1) (r.steal (f k))).2.2 + 1 ≤
        r.freeWords + 1
      omega

/-- Claim C2: retiring a non-empty region with `fill_up = true` whose free
space is at least the minimum fill threshold leaves the region with strictly
fewer free words than the threshold, and returns as waste exactly the
region's pre-retire free bytes (the filled span plus the sub-threshold
remainder; here, in the uncontended execution, the whole span is filled). -/
theorem retire_fill_up_waste_and_threshold (minFill : Nat)
    (r : G1HeapRegion) (hmf : 0 < minFill) (hne : r.is_empty = false)
    (hfree : minFill ≤ r.freeWords) :
    ∃ r' : G1HeapRegion,
      AllocRegion.retire_internal AllocRegion.baseHook minFill
          (fun _ => 0) () r true = some (r.free, r', ()) ∧
        r'.freeWords < minFill := by
  refine ⟨{ capacityWords := r.capacityWords, top := r.capacityWords,
            preDummyTop := some r.top }, ?_, ?_⟩
  · unfold AllocRegion.retire_internal
    rw [if_neg (by simp [hne])]
    rw [if_pos rfl]
    rw [fill_up_noInterference minFill r hmf hfree]
    rfl
  · show r.capacityWords - r.capacityWords < minFill
    omega

/-- Witness for C2 at the spec's end-to-end scenario A: a region of 2048
words with 2000 words allocated and fill threshold 2. -/
theorem retire_fill_up_waste_and_threshold_witness :
    ∃ r' : G1HeapRegion,
      AllocRegion.retire_internal AllocRegion.baseHook 2
          (fun _ => 0) () ⟨2048, 2000, none⟩ true =
        some ((⟨2048, 2000, none⟩ : G1HeapRegion).free, r', ()) ∧
        r'.freeWords < 2 :=
  retire_fill_up_waste_and_threshold 2 ⟨2048, 2000, none⟩ (by decide)
    (by decide) (by decide)

/-- Claim C10: a plain retirement (`retire` with `fill_up = false`) of the
active region always reports zero waste — waste is accrued only through the
fill-up path.  `release` retires through exactly this path (it calls
`retire(false)`), so it too accrues no waste. -/
theorem retire_no_fill_up_zero_waste (minFill : Nat) (f : Nat → Nat)
    (s : AllocRegionState) (w : Nat) (s' : AllocRegionState)
    (h : AllocRegion.retire AllocRegion.baseHook minFill f () s false =
      some (w, s', ())) :
    w = 0 := by
  unfold AllocRegion.retire at h
  split at h
  · exact absurd h (by simp)
  · simp only [Option.some.injEq, Prod.mk.injEq] at h
    exact h.1.symm
  · rename_i r
    unfold AllocRegion.retire_internal AllocRegion.baseHook at h
    split at h
    · rename_i waste rr st heq
      simp only [Option.some.injEq, Prod.mk.injEq] at h
      simp only [Bool.false_eq_true, if_false] at heq
      split at heq
      · exact absurd heq (by simp)
      · simp only [Option.some.injEq, Prod.mk.injEq] at heq
        omega
    · exact absurd h (by simp)

/-- Witness for C10: plain retirement of an active region of 64 words with
32 words allocated reports zero waste. -/
theorem retire_no_fill_up_zero_waste_witness : (0 : Nat) = 0 :=
  retire_no_fill_up_zero_waste 2 (fun _ => 0)
    { alloc_region := ActiveRef.real ⟨64, 32, none⟩, count := 1 } 0
    { alloc_region := ActiveRef.dummy, count := 1 } rfl

/-- Claim C4: under the precondition that the active region is the dummy,
the acquisition path `new_alloc_region_and_allocate(word_size)` returns null
and leaves the state unchanged when the heap supplies no region; otherwise
the first allocation of `word_size` words on the freshly supplied empty
region succeeds (pointer 0, the region's base), and only then is the region
— already containing that allocation — published as active, with the
acquisition count incremented by one. -/
theorem new_alloc_region_and_allocate_correct (s : AllocRegionState)
    (heapAnswer : Option G1HeapRegion) (w : Nat)
    (hpre : s.alloc_region = ActiveRef.dummy) :
    (heapAnswer = none →
       AllocRegion.new_alloc_region_and_allocate s heapAnswer w =
         some (none, s)) ∧
    (∀ nr : G1HeapRegion, heapAnswer = some nr → nr.is_empty = true →
       0 < w → w ≤ nr.capacityWords →
       AllocRegion.new_alloc_region_and_allocate s heapAnswer w =
         some (some 0,
           { alloc_region := ActiveRef.real ⟨nr.capacityWords, w, none⟩,
             count := s.count + 1 })) := by
  constructor
  · intro hA
    subst hA
    unfold AllocRegion.new_alloc_region_and_allocate
    rw [if_pos hpre]
  · intro nr hA hemp hw hcap
    subst hA
    have htop : nr.top = 0 := by
      simpa [G1HeapRegion.is_empty] using hemp
    unfold AllocRegion.new_alloc_region_and_allocate
    rw [if_pos hpre]
    show (if (nr.reset_pre_dummy_top).is_empty then _ else none) = _
    have hemp0 : (nr.reset_pre_dummy_top).is_empty = true := by
      simp [G1HeapRegion.reset_pre_dummy_top, G1HeapRegion.is_empty, htop]
    rw [if_pos hemp0]
    have hpar : (nr.reset_pre_dummy_top).par_allocate w =
        some (0, ⟨nr.capacityWords, w, none⟩) := by
      unfold G1HeapRegion.par_allocate G1HeapRegion.reset_pre_dummy_top
        G1HeapRegion.freeWords
      rw [if_pos (by simp; omega)]
      simp [htop]
    rw [hpar]
    show (match AllocRegion.update_alloc_region s ⟨nr.capacityWords, w, none⟩ with
          | some s' => some (some 0, s')
          | none => none) = _
    unfold AllocRegion.update_alloc_region
    rw [if_neg (by simp [G1HeapRegion.is_empty]; omega)]

/-- Witness for C4: with the heap supplying an empty 256-word region and a
100-word request, the acquisition publishes the region already holding the
allocation; with no region supplied it returns null. -/
theorem new_alloc_region_and_allocate_correct_witness :
    AllocRegion.new_alloc_region_and_allocate
        { alloc_region := ActiveRef.dummy, count := 3 } none 100 =
      some (none, { alloc_region := ActiveRef.dummy, count := 3 }) ∧
    AllocRegion.new_alloc_region_and_allocate
        { alloc_region := ActiveRef.dummy, count := 3 }
        (some ⟨256, 0, some 7⟩) 100 =
      some (some 0,
        { alloc_region := ActiveRef.real ⟨256, 100, none⟩, count := 4 }) :=
  ⟨(new_alloc_region_and_allocate_correct
      { alloc_region := ActiveRef.dummy, count := 3 } none 100 rfl).1 rfl,
   (new_alloc_region_and_allocate_correct
      { alloc_region := ActiveRef.dummy, count := 3 }
      (some ⟨256, 0, some 7⟩) 100 rfl).2 ⟨256, 0, some 7⟩ rfl (by decide)
      (by decide) (by decide)⟩

/-- Claim C5 counterexample: `release()` is not idempotent.  From the
initialized idle state, the first `release()` succeeds and returns no
region, but the second call fails the `_alloc_region != nullptr` assertion
inside `retire()` (modelled as `none`), instead of being safe and returning
none as the claim states. -/
theorem release_not_idempotent :
    AllocRegion.release AllocRegion.baseHook 1 (fun _ => 0) ()
        { alloc_region := ActiveRef.dummy, count := 0 } =
      some (none, { alloc_region := ActiveRef.noRegion, count := 0 }, ()) ∧
    AllocRegion.release AllocRegion.baseHook 1 (fun _ => 0) ()
        { alloc_region := ActiveRef.noRegion, count := 0 } = none :=
  ⟨rfl, rfl⟩

/-- Claim C5 as amended: a second `release()` immediately following a
successful one always fails the "not initialized properly" assertion of
`retire()` — after `release`, `init()` must be called before any further
operation. -/
theorem release_second_call_fails (minFill : Nat) (f g : Nat → Nat)
    (s s' : AllocRegionState) (ret : Option G1HeapRegion)
    (h : AllocRegion.release AllocRegion.baseHook minFill f () s =
      some (ret, s', ())) :
    AllocRegion.release AllocRegion.baseHook minFill g () s' = none := by
  have hnull : s'.alloc_region = ActiveRef.noRegion := by
    unfold AllocRegion.release at h
    split at h
    · exact absurd h (by simp)
    · split at h
      · simp only [Option.some.injEq, Prod.mk.injEq] at h
        rw [← h.2.1]
      · exact absurd h (by simp)
  obtain ⟨a, c⟩ := s'
  simp only at hnull
  subst hnull
  rfl

/-- Witness for the amended C5: the second release after releasing the idle
initialized core fails. -/
theorem release_second_call_fails_witness :
    AllocRegion.release AllocRegion.baseHook 1 (fun _ => 0) ()
      { alloc_region := ActiveRef.noRegion, count := 0 } = none :=
  release_second_call_fails 1 (fun _ => 0) (fun _ => 0)
    { alloc_region := ActiveRef.dummy, count := 0 }
    { alloc_region := ActiveRef.noRegion, count := 0 } none rfl

/-- Claim C1: in every reachable state of the allocator core, an active
region that is not the dummy is never empty (`used() > 0`).  Every operation
that publishes a region as active goes through `update_alloc_region`, whose
non-emptiness assertion holds because the acquisition path performs the
first allocation before publishing. -/
theorem active_region_never_empty (minFill : Nat) (s : AllocRegionState)
    (h : Reachable minFill s) :
    ∀ r : G1HeapRegion, s.alloc_region = ActiveRef.real r → 0 < r.used := by
  induction h with
  | start =>
      intro r hr
      exact absurd hr (by simp)
  | init s s' _ heq _ =>
      intro r hr
      unfold AllocRegion.init at heq
      split at heq
      · simp only [Option.some.injEq] at heq
        rw [← heq] at hr
        exact absurd hr (by simp)
      · exact absurd heq (by simp)
  | set s s' r0 _ heq _ =>
      intro r hr
      unfold AllocRegion.set at heq
      split at heq
      · obtain ⟨hre, hne⟩ := update_alloc_region_shape s r0 s' heq
        rw [hre] at hr
        simp only [ActiveRef.real.injEq] at hr
        rw [← hr]
        exact (G1HeapRegion.used_pos_iff r0).mpr hne
      · exact absurd heq (by simp)
  | newAlloc s s' heapAnswer w res _ heq ih =>
      intro r hr
      unfold AllocRegion.new_alloc_region_and_allocate at heq
      split at heq
      · split at heq
        · simp only [Option.some.injEq, Prod.mk.injEq] at heq
          rw [← heq.2] at hr
          exact ih r hr
        · simp only [] at heq
          split at heq
          · split at heq
            · split at heq
              · rename_i hupd
                simp only [Option.some.injEq, Prod.mk.injEq] at heq
                obtain ⟨hre, hne⟩ := update_alloc_region_shape _ _ _ hupd
                rw [← heq.2] at hr
                rw [hre] at hr
                simp only [ActiveRef.real.injEq] at hr
                rw [← hr]
                exact (G1HeapRegion.used_pos_iff _).mpr hne
              · exact absurd heq (by simp)
            · exact absurd heq (by simp)
          · exact absurd heq (by simp)
      · exact absurd heq (by simp)
  | fastAlloc s s' w p _ heq ih =>
      intro r hr
      unfold AllocRegion.fast_allocate at heq
      split at heq
      · rename_i r0 hre0
        split at heq
        · rename_i p0 r0' hpar
          simp only [Option.some.injEq, Prod.mk.injEq] at heq
          rw [← heq.2] at hr
          simp only [ActiveRef.real.injEq] at hr
          unfold G1HeapRegion.par_allocate at hpar
          split at hpar
          · simp only [Option.some.injEq, Prod.mk.injEq] at hpar
            have h0 : 0 < r0.used := ih r0 hre0
            rw [← hr, ← hpar.2]
            unfold G1HeapRegion.used at h0 ⊢
            simp only
            unfold HeapWordSize at h0 ⊢
            omega
          · exact absurd hpar (by simp)
        · exact absurd heq (by simp)
      · exact absurd heq (by simp)
  | retire s s' f fill_up waste _ heq ih =>
      intro r hr
      unfold AllocRegion.retire at heq
      split at heq
      · exact absurd heq (by simp)
      · rename_i hdum
        simp only [Option.some.injEq, Prod.mk.injEq] at heq
        rw [← heq.2.1] at hr
        rw [hdum] at hr
        exact absurd hr (by simp)
      · split at heq
        · simp only [Option.some.injEq, Prod.mk.injEq] at heq
          rw [← heq.2.1] at hr
          exact absurd hr (by simp [AllocRegion.reset_alloc_region])
        · exact absurd heq (by simp)
  | release s s' f ret _ heq _ =>
      intro r hr
      unfold AllocRegion.release at heq
      simp only [] at heq
      split at heq
      · exact absurd heq (by simp)
      · split at heq
        · simp only [Option.some.injEq, Prod.mk.injEq] at heq
          rw [← heq.2.1] at hr
          exact absurd hr (by simp)
        · exact absurd heq (by simp)

/-- Witness for C1 at a concrete reachable state: after `init` and
`set` of a 64-word region with one word allocated, the active region has
positive used bytes. -/
theorem active_region_never_empty_witness : 0 < (⟨64, 1, none⟩ : G1HeapRegion).used :=
  active_region_never_empty 2
    { alloc_region := ActiveRef.real ⟨64, 1, none⟩, count := 1 }
    (Reachable.set { alloc_region := ActiveRef.dummy, count := 0 }
      { alloc_region := ActiveRef.real ⟨64, 1, none⟩, count := 1 }
      ⟨64, 1, none⟩
      (Reachable.init { alloc_region := ActiveRef.noRegion, count := 0 }
        { alloc_region := ActiveRef.dummy, count := 0 } Reachable.start rfl)
      rfl)
    ⟨64, 1, none⟩ rfl

theorem runAllocs_spec : ∀ (ws : List Nat) (r : G1HeapRegion),
    r.top ≤ (runAllocs r ws).2.top ∧
    (runAllocs r ws).2.capacityWords = r.capacityWords ∧
    (∀ sp ∈ (runAllocs r ws).1,
      r.top ≤ sp.1 ∧ sp.1 + sp.2 ≤ (runAllocs r ws).2.top) ∧
    (runAllocs r ws).1.Pairwise (fun a b => a.1 + a.2 ≤ b.1) ∧
    (runAllocs r ws).2.top = r.top + ((runAllocs r ws).1.map Prod.snd).sum ∧
    (r.top ≤ r.capacityWords → (runAllocs r ws).2.top ≤ r.capacityWords) := by
  intro ws
  induction ws with
  | nil =>
      intro r
      simp [runAllocs]
  | cons w ws ih =>
      intro r
      cases hpar : r.par_allocate w with
      | none =>
          simp only [runAllocs, hpar]
          exact ih r
      | some v =>
          obtain ⟨p, r'⟩ := v
          have hw : w ≤ r.freeWords ∧ p = r.top ∧
              r' = { r with top := r.top + w } := by
            unfold G1HeapRegion.par_allocate at hpar
            split at hpar
            · simp only [Option.some.injEq, Prod.mk.injEq] at hpar
              exact ⟨by assumption, hpar.1.symm, hpar.2.symm⟩
            · exact absurd hpar (by simp)
          obtain ⟨hw1, hp, hr'⟩ := hw
          subst hp
          subst hr'
          unfold G1HeapRegion.freeWords at hw1
          obtain ⟨ha, hb, hc, hd, he, hf⟩ :=
            ih { r with top := r.top + w }
          have ha' : r.top + w ≤
              (runAllocs { r with top := r.top + w } ws).2.top := ha
          have hb' : (runAllocs { r with top := r.top + w } ws).2.capacityWords
              = r.capacityWords := hb
          have hc' : ∀ sp ∈ (runAllocs { r with top := r.top + w } ws).1,
              r.top + w ≤ sp.1 ∧
              sp.1 + sp.2 ≤ (runAllocs { r with top := r.top + w } ws).2.top :=
            hc
          have he' : (runAllocs { r with top := r.top + w } ws).2.top =
              (r.top + w) +
                ((runAllocs { r with top := r.top + w } ws).1.map Prod.snd).sum :=
            he
          have hf' : r.top + w ≤ r.capacityWords →
              (runAllocs { r with top := r.top + w } ws).2.top ≤
                r.capacityWords := hf
          simp only [runAllocs, hpar, List.map_cons, List.sum_cons,
            List.mem_cons, List.pairwise_cons]
          refine ⟨by omega, hb', ?_, ⟨?_, hd⟩, by omega,
            fun hcap => hf' (by omega)⟩
          · intro sp hsp
            rcases hsp with hsp | hsp
            · subst hsp
              exact ⟨Nat.le_refl _, ha'⟩
            · obtain ⟨t1, t2⟩ := hc' sp hsp
              exact ⟨by omega, t2⟩
          · intro b hb2
            exact (hc' b hb2).1

/-- Claim C6: for any linearized history of concurrent `allocate(w)` calls
against one active region, the granted spans of the successful calls are
pairwise non-overlapping, and the sum of the granted span sizes never
exceeds the region's capacity. -/
theorem concurrent_allocations_exclusive (r : G1HeapRegion) (ws : List Nat)
    (h : r.top ≤ r.capacityWords) :
    (runAllocs r ws).1.Pairwise SpansDisjoint ∧
    ((runAllocs r ws).1.map Prod.snd).sum ≤ r.capacityWords := by
  obtain ⟨ha, hb, hc, hd, he, hf⟩ := runAllocs_spec ws r
  constructor
  · exact hd.imp (fun hab => Or.inl hab)
  · have := hf h
    omega

/-- Witness for C6 at the spec's end-to-end scenario C: requests of 1000 and
1100 words race against a region with exactly 2000 free words; the granted
spans are exclusive and fit within the 2048-word capacity (exactly one of
the two requests succeeds). -/
theorem fill_up_below_threshold (minFill : Nat) (f : Nat → Nat)
    (r : G1HeapRegion) (h : r.freeWords < minFill) :
    fill_up_remaining_space minFill f r = (r.free, r) := by
  unfold fill_up_remaining_space
  rw [fillLoop_eq_stop minFill f 0 r h]
  simp

theorem mutator_retire_internal_shape (minFill : Nat) (f : Nat → Nat)
    (s : MutatorState) (r : G1HeapRegion) (fu : Bool)
    (h : r.is_empty = false) :
    Mutator.retire_internal minFill f s r fu =
      some ((if fu then fill_up_remaining_space minFill f r else (0, r)).1,
        { s with heapRetired :=
            ((if fu then fill_up_remaining_space minFill f r else (0, r)).2,
             (if fu then fill_up_remaining_space minFill f r else (0, r)).2.used)
            :: s.heapRetired }) := by
  unfold Mutator.retire_internal AllocRegion.retire_internal
    Mutator.retire_region
  rw [if_neg (by simp [h])]

theorem mutator_retire_internal_fields (minFill : Nat) (f : Nat → Nat)
    (s : MutatorState) (r : G1HeapRegion) (fu : Bool) (w : Nat)
    (s' : MutatorState)
    (h : Mutator.retire_internal minFill f s r fu = some (w, s')) :
    s'.wasted_bytes = s.wasted_bytes ∧
    s'.retained_alloc_region = s.retained_alloc_region ∧
    s'.core = s.core := by
  unfold Mutator.retire_internal at h
  split at h
  · rename_i w1 rr st1 heq
    simp only [Option.some.injEq, Prod.mk.injEq] at h
    unfold AllocRegion.retire_internal Mutator.retire_region at heq
    split at heq
    · exact absurd heq (by simp)
    · simp only [Option.some.injEq, Prod.mk.injEq] at heq
      rw [← h.2, ← heq.2.2]
      exact ⟨rfl, rfl, rfl⟩
  · exact absurd h (by simp)

theorem concurrent_allocations_exclusive_witness :
    (⟨2048, 48, none⟩ : G1HeapRegion).top ≤
      (⟨2048, 48, none⟩ : G1HeapRegion).capacityWords ∧
    ((runAllocs ⟨2048, 48, none⟩ [1000, 1100]).1.Pairwise SpansDisjoint ∧
     ((runAllocs ⟨2048, 48, none⟩ [1000, 1100]).1.map Prod.snd).sum ≤
       (⟨2048, 48, none⟩ : G1HeapRegion).capacityWords) :=
  ⟨by decide,
   concurrent_allocations_exclusive ⟨2048, 48, none⟩ [1000, 1100] (by decide)⟩

/-- Claim C3 counterexample: `should_retain` retains on *equal* free space,
not only on strictly more.  With `MinTLABSize = 8`, a candidate region of 8
free bytes and a retained region of the same 8 free bytes, `retire` retains
the candidate (displacing and fully retiring the old retained region) even
though the candidate's free space is not strictly greater. -/
theorem mutator_retain_equal_free_cex :
    Mutator.retire 2 (fun _ => 0) 8
        { core := { alloc_region := ActiveRef.real ⟨64, 63, none⟩, count := 1 },
          retained_alloc_region := some ⟨96, 95, none⟩,
          wasted_bytes := 0, heapRetired := [] } true =
      some (8,
        { core := { alloc_region := ActiveRef.dummy, count := 1 },
          retained_alloc_region := some ⟨64, 63, none⟩,
          wasted_bytes := 8,
          heapRetired := [(⟨96, 95, none⟩, 760)] }) ∧
    ¬ ((⟨96, 95, none⟩ : G1HeapRegion).free <
        (⟨64, 63, none⟩ : G1HeapRegion).free) := by
  constructor
  · have hfill := fill_up_below_threshold 2 (fun _ => 0) ⟨96, 95, none⟩
      (by decide)
    have hint := mutator_retire_internal_shape 2 (fun _ => 0)
      { core := { alloc_region := ActiveRef.real ⟨64, 63, none⟩, count := 1 },
        retained_alloc_region := some ⟨96, 95, none⟩,
        wasted_bytes := 0, heapRetired := [] }
      ⟨96, 95, none⟩ true (by decide)
    rw [hfill] at hint
    unfold Mutator.retire
    simp only [AllocRegion.get]
    rw [show Mutator.should_retain 8
        { core := { alloc_region := ActiveRef.real ⟨64, 63, none⟩, count := 1 },
          retained_alloc_region := some ⟨96, 95, none⟩,
          wasted_bytes := 0, heapRetired := [] } ⟨64, 63, none⟩ = true
      from rfl]
    rw [if_pos rfl]
    rw [hint]
    rfl
  · decide

/-- Claim C3 as amended: in `MutatorAllocRegion::retire`, the candidate
region `R` is retained if and only if `R.free() >= MinTLABSize` and (no
region is retained, or `R.free()` is *greater than or equal to* the
retained region's free bytes — the source keeps `R` on ties, it does not
require strictly more).  When `R` is retained, a previously retained region
is fully retired with `fill_up = true` and its waste recorded; when `R` is
not retained it is retired along the ordinary path and the retained region
is unaffected. -/
theorem mutator_retire_policy (minFill : Nat) (f : Nat → Nat) (minTLAB : Nat)
    (s : MutatorState) (R : G1HeapRegion)
    (hR : s.core.alloc_region = ActiveRef.real R) :
    (Mutator.should_retain minTLAB s R = true ↔
      (minTLAB ≤ R.free ∧
       ∀ q, s.retained_alloc_region = some q → q.free ≤ R.free)) ∧
    (∀ fu : Bool, Mutator.should_retain minTLAB s R = true →
      s.retained_alloc_region = none →
      Mutator.retire minFill f minTLAB s fu =
        some (0, { s with core := AllocRegion.reset_alloc_region s.core,
                          retained_alloc_region := some R,
                          wasted_bytes := s.wasted_bytes + 0 })) ∧
    (∀ (fu : Bool) (q : G1HeapRegion),
      Mutator.should_retain minTLAB s R = true →
      s.retained_alloc_region = some q → q.is_empty = false →
      ∃ w s1, Mutator.retire_internal minFill f s q true = some (w, s1) ∧
        Mutator.retire minFill f minTLAB s fu =
          some (w, { s1 with core := AllocRegion.reset_alloc_region s1.core,
                             retained_alloc_region := some R,
                             wasted_bytes := s1.wasted_bytes + w })) ∧
    (∀ fu : Bool, Mutator.should_retain minTLAB s R = false →
      R.is_empty = false →
      ∃ w s1, Mutator.retire_internal minFill f s R fu = some (w, s1) ∧
        s1.retained_alloc_region = s.retained_alloc_region ∧
        Mutator.retire minFill f minTLAB s fu =
          some (w, { s1 with core := AllocRegion.reset_alloc_region s1.core,
                             wasted_bytes := s1.wasted_bytes + w })) := by
  have hget : AllocRegion.get s.core = some R := by
    unfold AllocRegion.get
    rw [hR]
  refine ⟨?_, ?_, ?_, ?_⟩
  · unfold Mutator.should_retain
    rcases hq : s.retained_alloc_region with - | q
    · show (if R.free < minTLAB then false else true) = true ↔ _
      split
      · rename_i hlt
        constructor
        · intro hfalse
          exact absurd hfalse (by simp)
        · intro hrhs
          exact absurd hlt (by omega)
      · rename_i hge
        constructor
        · intro _
          refine ⟨by omega, ?_⟩
          intro q hq'
          cases hq'
        · intro _
          rfl
    · show (if R.free < minTLAB then false else !decide (R.free < q.free)) =
        true ↔ _
      split
      · rename_i hlt
        constructor
        · intro hfalse
          exact absurd hfalse (by simp)
        · intro hrhs
          exact absurd hlt (by omega)
      · rename_i hge
        constructor
        · intro hb
          have hnlt : ¬ (R.free < q.free) := by simpa using hb
          refine ⟨by omega, ?_⟩
          intro q' hq'
          injection hq' with e
          subst e
          omega
        · intro hrhs
          have := hrhs.2 q rfl
          simp [show ¬ (R.free < q.free) by omega]
  · intro fu hsr hq
    unfold Mutator.retire
    rw [hget]
    simp [hsr, hq]
  · intro fu q hsr hq hqne
    have shape := mutator_retire_internal_shape minFill f s q true hqne
    refine ⟨_, _, shape, ?_⟩
    unfold Mutator.retire
    rw [hget]
    simp [hsr, hq, shape]
  · intro fu hsr hRne
    have shape := mutator_retire_internal_shape minFill f s R fu hRne
    refine ⟨_, _, shape, rfl, ?_⟩
    unfold Mutator.retire
    rw [hget]
    simp [hsr, shape]

/-- Witness for the amended C3: a candidate with 16 free bytes against a
retained region with 8 free bytes (MinTLABSize = 8) is retained, displacing
and fully retiring the old retained region. -/
theorem mutator_retire_policy_witness :
    ∃ w s1,
      Mutator.retire_internal 2 (fun _ => 0)
          { core := { alloc_region := ActiveRef.real ⟨64, 62, none⟩, count := 1 },
            retained_alloc_region := some ⟨96, 95, none⟩,
            wasted_bytes := 0, heapRetired := [] } ⟨96, 95, none⟩ true =
        some (w, s1) ∧
      Mutator.retire 2 (fun _ => 0) 8
          { core := { alloc_region := ActiveRef.real ⟨64, 62, none⟩, count := 1 },
            retained_alloc_region := some ⟨96, 95, none⟩,
            wasted_bytes := 0, heapRetired := [] } true =
        some (w, { s1 with core := AllocRegion.reset_alloc_region s1.core,
                           retained_alloc_region := some ⟨64, 62, none⟩,
                           wasted_bytes := s1.wasted_bytes + w }) :=
  (mutator_retire_policy 2 (fun _ => 0) 8
      { core := { alloc_region := ActiveRef.real ⟨64, 62, none⟩, count := 1 },
        retained_alloc_region := some ⟨96, 95, none⟩,
        wasted_bytes := 0, heapRetired := [] } ⟨64, 62, none⟩ rfl).2.2.1
    true ⟨96, 95, none⟩ (by decide) rfl (by decide)

theorem mutator_retire_wasted_mono (minFill : Nat) (f : Nat → Nat)
    (minTLAB : Nat) (s : MutatorState) (fu : Bool) (w : Nat)
    (s' : MutatorState)
    (h : Mutator.retire minFill f minTLAB s fu = some (w, s')) :
    s.wasted_bytes ≤ s'.wasted_bytes := by
  unfold Mutator.retire at h
  split at h
  · simp only [Option.some.injEq, Prod.mk.injEq] at h
    rw [← h.2]
    show s.wasted_bytes ≤ s.wasted_bytes + 0
    omega
  · rename_i current hcur
    simp only [] at h
    split at h
    · rename_i waste s2 heq
      simp only [Option.some.injEq, Prod.mk.injEq] at h
      have hs2 : s2.wasted_bytes = s.wasted_bytes := by
        split at heq
        · split at heq
          · rename_i q hq
            split at heq
            · rename_i w1 s1 hri
              simp only [Option.some.injEq, Prod.mk.injEq] at heq
              obtain ⟨hf1, -, -⟩ :=
                mutator_retire_internal_fields minFill f s q true w1 s1 hri
              rw [← heq.2]
              exact hf1
            · exact absurd heq (by simp)
          · simp only [Option.some.injEq, Prod.mk.injEq] at heq
            rw [← heq.2]
        · obtain ⟨hf1, -, -⟩ :=
            mutator_retire_internal_fields minFill f s current fu waste s2 heq
          exact hf1
      rw [← h.2]
      simp only
      omega
    · exact absurd h (by simp)

theorem mutator_release_wasted_mono (minFill : Nat) (f : Nat → Nat)
    (minTLAB : Nat) (s : MutatorState) (ret : Option G1HeapRegion)
    (s' : MutatorState)
    (h : Mutator.release minFill f minTLAB s = some (ret, s')) :
    s.wasted_bytes ≤ s'.wasted_bytes := by
  unfold Mutator.release at h
  split at h
  · exact absurd h (by simp)
  · rename_i w1 s1 hret
    have h1 : s.wasted_bytes ≤ s1.wasted_bytes :=
      mutator_retire_wasted_mono minFill f minTLAB s false w1 s1 hret
    split at h
    · simp only [] at h
      split at h
      · rename_i q hq
        split at h
        · rename_i w2 s3 hri
          obtain ⟨hf1, -, -⟩ := mutator_retire_internal_fields minFill f
            { s1 with core := { s1.core with alloc_region := ActiveRef.noRegion } }
            q false w2 s3 hri
          simp only [Option.some.injEq, Prod.mk.injEq] at h
          rw [← h.2]
          simp only at hf1 ⊢
          omega
        · exact absurd h (by simp)
      · simp only [Option.some.injEq, Prod.mk.injEq] at h
        rw [← h.2]
        simp only
        omega
    · exact absurd h (by simp)

/-- Claim C8 counterexample: the cumulative wasted-byte counter is *not*
monotone over the heap lifetime: `MutatorAllocRegion::init` resets it to
zero.  A legal sequence — retire that retains the candidate and fully
retires the old retained region (waste 8 bytes), then `release`, then
`init` — drops the counter from 8 back to 0. -/
theorem mutator_wasted_reset_by_init_cex :
    Mutator.retire 2 (fun _ => 0) 8
        { core := { alloc_region := ActiveRef.real ⟨16, 15, none⟩, count := 1 },
          retained_alloc_region := some ⟨32, 31, none⟩,
          wasted_bytes := 0, heapRetired := [] } true =
      some (8,
        { core := { alloc_region := ActiveRef.dummy, count := 1 },
          retained_alloc_region := some ⟨16, 15, none⟩,
          wasted_bytes := 8, heapRetired := [(⟨32, 31, none⟩, 248)] }) ∧
    Mutator.release 2 (fun _ => 0) 8
        { core := { alloc_region := ActiveRef.dummy, count := 1 },
          retained_alloc_region := some ⟨16, 15, none⟩,
          wasted_bytes := 8, heapRetired := [(⟨32, 31, none⟩, 248)] } =
      some (none,
        { core := { alloc_region := ActiveRef.noRegion, count := 1 },
          retained_alloc_region := none,
          wasted_bytes := 8,
          heapRetired := [(⟨16, 15, none⟩, 120), (⟨32, 31, none⟩, 248)] }) ∧
    Mutator.init
        { core := { alloc_region := ActiveRef.noRegion, count := 1 },
          retained_alloc_region := none,
          wasted_bytes := 8,
          heapRetired := [(⟨16, 15, none⟩, 120), (⟨32, 31, none⟩, 248)] } =
      some
        { core := { alloc_region := ActiveRef.dummy, count := 0 },
          retained_alloc_region := none,
          wasted_bytes := 0,
          heapRetired := [(⟨16, 15, none⟩, 120), (⟨32, 31, none⟩, 248)] } ∧
    (0 : Nat) < 8 := by
  refine ⟨?_, rfl, rfl, by decide⟩
  have hfill := fill_up_below_threshold 2 (fun _ => 0) ⟨32, 31, none⟩
    (by decide)
  have hint := mutator_retire_internal_shape 2 (fun _ => 0)
    { core := { alloc_region := ActiveRef.real ⟨16, 15, none⟩, count := 1 },
      retained_alloc_region := some ⟨32, 31, none⟩,
      wasted_bytes := 0, heapRetired := [] }
    ⟨32, 31, none⟩ true (by decide)
  rw [hfill] at hint
  unfold Mutator.retire
  simp only [AllocRegion.get]
  rw [show Mutator.should_retain 8
      { core := { alloc_region := ActiveRef.real ⟨16, 15, none⟩, count := 1 },
        retained_alloc_region := some ⟨32, 31, none⟩,
        wasted_bytes := 0, heapRetired := [] } ⟨16, 15, none⟩ = true
    from rfl]
  rw [if_pos rfl]
  rw [hint]
  rfl

/-- Claim C8 as amended: the cumulative wasted-byte counter is monotone
non-decreasing under every `MutatorAllocRegion` operation *except* `init`,
which resets it to zero (it is monotone over an active lifetime, between an
`init` and the next `init`, not over the heap lifetime). -/
theorem mutator_wasted_bytes_monotone (minFill : Nat) (f : Nat → Nat)
    (minTLAB : Nat) (s : MutatorState) :
    (∀ (fu : Bool) (w : Nat) (s' : MutatorState),
      Mutator.retire minFill f minTLAB s fu = some (w, s') →
      s.wasted_bytes ≤ s'.wasted_bytes) ∧
    (∀ (ret : Option G1HeapRegion) (s' : MutatorState),
      Mutator.release minFill f minTLAB s = some (ret, s') →
      s.wasted_bytes ≤ s'.wasted_bytes) ∧
    (∀ s' : MutatorState, Mutator.init s = some s' →
      s'.wasted_bytes = 0) := by
  refine ⟨fun fu w s' h => mutator_retire_wasted_mono minFill f minTLAB s fu w s' h,
          fun ret s' h => mutator_release_wasted_mono minFill f minTLAB s ret s' h,
          ?_⟩
  intro s' h
  unfold Mutator.init at h
  split at h
  · split at h
    · simp only [Option.some.injEq] at h
      rw [← h]
    · exact absurd h (by simp)
  · exact absurd h (by simp)

/-- Witness for the amended C8: a retire from an idle core (active region is
the dummy) leaves the wasted counter unchanged at 5. -/
theorem mutator_wasted_bytes_monotone_witness :
    (⟨⟨ActiveRef.dummy, 0⟩, none, 5, []⟩ : MutatorState).wasted_bytes ≤
    (⟨⟨ActiveRef.dummy, 0⟩, none, 5, []⟩ : MutatorState).wasted_bytes :=
  (mutator_wasted_bytes_monotone 1 (fun _ => 0) 8
      ⟨⟨ActiveRef.dummy, 0⟩, none, 5, []⟩).1 false 0
    ⟨⟨ActiveRef.dummy, 0⟩, none, 5, []⟩ rfl

theorem gc_hook_stats (purpose : Purpose) (s : GCState) (r : G1HeapRegion)
    (s' : GCState) (h : GCAlloc.retire_region purpose s r = some s') :
    s'.stats = s.stats ∧ s'.core = s.core := by
  unfold GCAlloc.retire_region at h
  split at h
  · exact absurd h (by simp)
  · simp only [Option.some.injEq] at h
    rw [← h]
    exact ⟨rfl, rfl⟩

theorem gc_retire_internal_fields (purpose : Purpose) (minFill : Nat)
    (f : Nat → Nat) (s : GCState) (r : G1HeapRegion) (fu : Bool)
    (waste : Nat) (rr2 : G1HeapRegion) (st' : GCState)
    (h : AllocRegion.retire_internal (GCAlloc.retire_region purpose)
      minFill f s r fu = some (waste, rr2, st')) :
    st'.stats = s.stats ∧ st'.core = s.core := by
  have haux : ∀ (c : Prop) [Decidable c] (rec st3 : GCState),
      (if c then (none : Option GCState) else some rec) = some st3 →
      st3 = rec := by
    intro c inst rec st3 hh
    split at hh
    · exact absurd hh (by simp)
    · simp only [Option.some.injEq] at hh
      exact hh.symm
  unfold AllocRegion.retire_internal GCAlloc.retire_region at h
  split at h
  · exact absurd h (by simp)
  · simp only [] at h
    split at h
    · rename_i st2 heq2
      simp only [Option.some.injEq, Prod.mk.injEq] at h
      have h3 := haux _ _ _ heq2
      rw [← h.2.2, h3]
      exact ⟨rfl, rfl⟩
    · exact absurd h (by simp)

/-- Claim C7: `G1GCAllocRegion::retire_region` reports the region and the
bytes allocated during its active lifetime (`used()` minus the before
snapshot) to the heap tagged with this instance's purpose and zeroes the
snapshot; and the `retire` override adds the end-of-life waste, in words, to
the shared per-purpose statistics aggregator exactly when the active region
before the retirement was real (not the dummy). -/
theorem gc_retire_accounting (purpose : Purpose) (minFill : Nat)
    (f : Nat → Nat) (s : GCState) (r : G1HeapRegion) :
    (s.used_bytes_before ≤ r.used →
      GCAlloc.retire_region purpose s r =
        some { s with
                 heapRetired :=
                   (r, r.used - s.used_bytes_before, purpose) :: s.heapRetired,
                 used_bytes_before := 0 }) ∧
    (∀ (fu : Bool) (w : Nat) (s' : GCState),
      GCAlloc.retire purpose minFill f s fu = some (w, s') →
      (s'.stats = (w / HeapWordSize) :: s.stats ↔
        ∃ rr : G1HeapRegion, s.core.alloc_region = ActiveRef.real rr)) := by
  constructor
  · intro hle
    unfold GCAlloc.retire_region
    rw [if_neg (by omega)]
  · intro fu w s' h
    cases har : s.core.alloc_region with
    | noRegion =>
        have hret : AllocRegion.retire (GCAlloc.retire_region purpose)
            minFill f s s.core fu = none := by
          unfold AllocRegion.retire
          rw [har]
        have hbase : GCAlloc.retireBase purpose minFill f s fu = none := by
          unfold GCAlloc.retireBase
          rw [hret]
        unfold GCAlloc.retire at h
        simp only [hbase] at h
        exact absurd h (by simp)
    | dummy =>
        have hret : AllocRegion.retire (GCAlloc.retire_region purpose)
            minFill f s s.core fu = some (0, s.core, s) := by
          unfold AllocRegion.retire
          rw [har]
        have hbase : GCAlloc.retireBase purpose minFill f s fu =
            some (0, { s with core := s.core }) := by
          unfold GCAlloc.retireBase
          rw [hret]
        have hget : AllocRegion.get s.core = none := by
          unfold AllocRegion.get
          rw [har]
        unfold GCAlloc.retire at h
        simp only [hbase, hget, Option.some.injEq, Prod.mk.injEq] at h
        obtain ⟨hw, hs⟩ := h
        subst hw
        subst hs
        constructor
        · intro he
          have hs2 : s.stats = 0 / HeapWordSize :: s.stats := he
          exact absurd hs2.symm (List.cons_ne_self _ _)
        · intro hex
          obtain ⟨rr, hrr⟩ := hex
          exact absurd hrr (by simp)
    | real rr =>
        cases hri : AllocRegion.retire_internal (GCAlloc.retire_region purpose)
            minFill f s rr fu with
        | none =>
            have hbase : GCAlloc.retireBase purpose minFill f s fu = none := by
              unfold GCAlloc.retireBase AllocRegion.retire
              rw [har]
              simp [hri]
            unfold GCAlloc.retire at h
            simp only [hbase] at h
            exact absurd h (by simp)
        | some v =>
            obtain ⟨waste, rr2, st'⟩ := v
            obtain ⟨hstats, -⟩ := gc_retire_internal_fields purpose minFill f
              s rr fu waste rr2 st' hri
            have hbase : GCAlloc.retireBase purpose minFill f s fu =
                some (waste,
                  { st' with core := AllocRegion.reset_alloc_region s.core }) := by
              unfold GCAlloc.retireBase AllocRegion.retire
              rw [har]
              simp [hri]
            have hget : AllocRegion.get s.core = some rr := by
              unfold AllocRegion.get
              rw [har]
            unfold GCAlloc.retire at h
            simp only [hbase, hget, Option.some.injEq, Prod.mk.injEq] at h
            obtain ⟨hw, hs⟩ := h
            subst hw
            subst hs
            constructor
            · intro _
              exact ⟨rr, rfl⟩
            · intro _
              show waste / HeapWordSize :: st'.stats =
                waste / HeapWordSize :: s.stats
              rw [hstats]

/-- Witness for C7: a dummy-idle instance's plain retirement adds nothing to
the statistics (no real region was active), and `retire_region` on a region
with 256 used bytes and a 100-byte before-snapshot reports 156 allocated
bytes and zeroes the snapshot. -/
theorem gc_retire_accounting_witness :
    (GCAlloc.retire_region Purpose.survivor
        ⟨⟨ActiveRef.dummy, 0⟩, 100, [], []⟩ ⟨64, 32, none⟩ =
      some ⟨⟨ActiveRef.dummy, 0⟩, 0, [],
            [(⟨64, 32, none⟩,
              (⟨64, 32, none⟩ : G1HeapRegion).used - 100,
              Purpose.survivor)]⟩) ∧
    ((⟨⟨ActiveRef.dummy, 3⟩, 0, [7], []⟩ : GCState).stats =
        (0 / HeapWordSize) ::
          (⟨⟨ActiveRef.dummy, 3⟩, 0, [7], []⟩ : GCState).stats ↔
      ∃ rr : G1HeapRegion,
        (⟨⟨ActiveRef.dummy, 3⟩, 0, [7], []⟩ : GCState).core.alloc_region =
          ActiveRef.real rr) :=
  ⟨(gc_retire_accounting Purpose.survivor 1 (fun _ => 0)
      ⟨⟨ActiveRef.dummy, 0⟩, 100, [], []⟩ ⟨64, 32, none⟩).1 (by decide),
   (gc_retire_accounting Purpose.survivor 1 (fun _ => 0)
      ⟨⟨ActiveRef.dummy, 3⟩, 0, [7], []⟩ ⟨64, 32, none⟩).2 false 0
     ⟨⟨ActiveRef.dummy, 3⟩, 0, [7], []⟩ rfl⟩

end G1
